import Mathlib

/-!
Verification of the task-list widget in `src/resources/js/main.js`.

The source is a single class, `TodoApp`, whose state is an in-memory list
of task objects backed by a key-value store.  We embed the data model and
the collection-level operations shallowly:

* a JS task object `\x7bid, text, completed, createdAt\x7d` becomes the
  structure `Todo` (ids are `Date.now()`-derived millisecond timestamps,
  modelled as `Nat`; `createdAt` is the ISO-8601 string, kept abstract);
* the current instant is passed explicitly (`now : Nat` for `Date.now()`,
  `nowIso : String` for `new Date().toISOString()`);
* the key-value store becomes `Storage`, holding an optional JSON value
  per key; `JSON.stringify` / `JSON.parse` become `encode...` / `decode...`
  over a JSON value type (`Json`), so the textual layer of JSON is
  abstracted but the structural layer is modelled;
* `new Date(x).toDateString()` (date-only rendering in local time) is kept
  abstract as a function parameter `toDateString : String → String`, and
  the current day string `new Date().toDateString()` as a parameter.
-/

/-- A task object as created in `addTodo` and `loadData`
(src/resources/js/main.js lines 36-52, 90-95). -/
structure Todo where
  id : Nat
  text : String
  completed : Bool
  createdAt : String
deriving DecidableEq

/-- JS `String.prototype.trim` (main.js line 87): strip leading and
trailing whitespace. -/
def jsTrim (s : String) : String :=
  String.mk
    (((s.data.dropWhile Char.isWhitespace).reverse.dropWhile
        Char.isWhitespace).reverse)

/-- `addTodo` (main.js lines 86-101) restricted to its effect on the
collection: trim the input; if the trimmed text is empty (the only falsy
string) do nothing; otherwise prepend a new task with `id = Date.now()`,
`completed = false`, `createdAt = new Date().toISOString()`. -/
def addTodo (input : String) (now : Nat) (nowIso : String)
    (todos : List Todo) : List Todo :=
  let text := jsTrim input
  if text = "" then todos
  else { id := now, text := text, completed := false, createdAt := nowIso } :: todos

/-- The per-element function of the `map` in `toggleTodo` (main.js line
104-106): `todo.id === id ? \x7b...todo, completed: !todo.completed\x7d : todo`. -/
def flipIf (id : Nat) (t : Todo) : Todo :=
  if t.id = id then { t with completed := !t.completed } else t

/-- `toggleTodo` (main.js lines 103-109) restricted to its effect on the
collection: rebuild the list, flipping `completed` on every element whose
id matches. -/
def toggleTodo (id : Nat) (todos : List Todo) : List Todo :=
  todos.map (flipIf id)

/-- The collection mutation committed by the delayed callback in
`deleteTodo` (main.js line 116): `this.todos.filter(todo => todo.id !== id)`.
The surrounding DOM query and the 300 ms `setTimeout` are view-layer. -/
def deleteTodo (id : Nat) (todos : List Todo) : List Todo :=
  todos.filter (fun t => t.id != id)

/-- `getFilteredTodos` (main.js lines 137-152), with the current section
passed explicitly.  `today` stands for `new Date().toDateString()` and
`toDateString` for `x => new Date(x).toDateString()`.  The JS `switch`
sends `case 'today'` and `case 'completed'` to their own branches and both
`case 'all'` and `default` to the same branch. -/
def getFilteredTodos (sect : String) (today : String)
    (toDateString : String → String) (todos : List Todo) : List Todo :=
  if sect = "today" then
    todos.filter (fun t => toDateString t.createdAt == today && !t.completed)
  else if sect = "completed" then
    todos.filter (fun t => t.completed)
  else
    todos.filter (fun t => !t.completed)

/-- How the browser serialises one character of a text node when
`innerHTML` is read back, as relied on by `escapeHtml` (main.js lines
222-226: `div.textContent = text; return div.innerHTML`).  Per the HTML
serialisation algorithm, text-node data escapes exactly the three
characters ampersand, less-than and greater-than. -/
def escapeChar (c : Char) : List Char :=
  if c = '&' then "&amp;".data
  else if c = '<' then "&lt;".data
  else if c = '>' then "&gt;".data
  else [c]

/-- `escapeHtml` (main.js lines 222-226): the textContent/innerHTML
round-trip through a detached div, i.e. HTML text-node escaping of the
whole string. -/
def escapeHtml (text : String) : String :=
  String.mk (text.data.flatMap escapeChar)

/-- Structured JSON values, the image of `JSON.stringify` on the data this
program stores (ids are non-negative integers, so `Nat` suffices for the
number case). `JSON.parse` inverts `JSON.stringify` on the textual layer,
so storage is modelled as holding these values directly. -/
inductive Json where
  | null
  | bool (b : Bool)
  | num (n : Nat)
  | str (s : String)
  | arr (elems : List Json)
  | obj (fields : List (String × Json))

/-- Field lookup on a JSON object, as JS property access `parsed.todo`
performs on the result of `JSON.parse`. -/
def Json.getField (j : Json) (k : String) : Option Json :=
  match j with
  | .obj fields => (fields.find? (fun f => f.1 == k)).map (fun f => f.2)
  | _ => none

/-- `JSON.stringify` of one task object (main.js line 155), structural
layer: the four fields in object-literal order. -/
def encodeTodo (t : Todo) : Json :=
  .obj [("id", .num t.id), ("text", .str t.text),
        ("completed", .bool t.completed), ("createdAt", .str t.createdAt)]

/-- `JSON.stringify(this.todos)` (main.js line 155), structural layer. -/
def encodeTodos (ts : List Todo) : Json :=
  .arr (ts.map encodeTodo)

/-- Reading a parsed JSON value back as a task object, as the rest of the
program uses elements of `JSON.parse(newData)` (main.js line 25).  `none`
stands for data whose shape the program does not expect (spec treats
malformed persisted data as an unrecovered load failure). -/
def decodeTodo (j : Json) : Option Todo :=
  match j.getField "id", j.getField "text",
        j.getField "completed", j.getField "createdAt" with
  | some (.num id), some (.str text), some (.bool c), some (.str ca) =>
      some { id := id, text := text, completed := c, createdAt := ca }
  | _, _, _, _ => none

/-- Reading each element of a parsed JSON array back as a task object;
fails if any element has an unexpected shape. -/
def decodeTodoList (js : List Json) : Option (List Todo) :=
  match js with
  | [] => some []
  | j :: rest =>
      match decodeTodo j, decodeTodoList rest with
      | some t, some ts => some (t :: ts)
      | _, _ => none

/-- Reading a parsed JSON value back as the task collection. -/
def decodeTodos (j : Json) : Option (List Todo) :=
  match j with
  | .arr elems => decodeTodoList elems
  | _ => none

/-- Reading each element of a parsed JSON array back as a string. -/
def decodeStringList (js : List Json) : Option (List String) :=
  match js with
  | [] => some []
  | .str s :: rest =>
      match decodeStringList rest with
      | some ss => some (s :: ss)
      | none => none
  | _ => none

/-- Reading a parsed JSON value back as a list of strings, as
`parsed.todo.forEach((text, index) => ...)` uses the legacy lists
(main.js lines 36, 45). -/
def decodeStrings (j : Json) : Option (List String) :=
  match j with
  | .arr elems => decodeStringList elems
  | _ => none

/-- Reading the legacy `todoList` value `\x7btodo: string[], completed:
string[]\x7d` (main.js lines 30-32). -/
def decodeLegacy (j : Json) : Option (List String × List String) :=
  match j.getField "todo", j.getField "completed" with
  | some jt, some jc =>
      match decodeStrings jt, decodeStrings jc with
      | some ts, some cs => some (ts, cs)
      | _, _ => none
  | _, _ => none

/-- The two storage keys the collection logic touches: `todos` (current
format) and `todoList` (legacy format).  `none` is an absent key, which is
the only falsy result of `localStorage.getItem` here since
`JSON.stringify` of an array or object is a non-empty string. -/
structure Storage where
  todos : Option Json
  todoList : Option Json

/-- `save` (main.js lines 154-156): write the collection under the
current-format key. -/
def save (ts : List Todo) (s : Storage) : Storage :=
  { s with todos := some (encodeTodos ts) }

/-- The migration loop bodies in `loadData` (main.js lines 36-52): each
pending string becomes an incomplete task with `id = Date.now() + index`,
each completed string a completed task with `id = Date.now() + 1000 +
index`, all with `createdAt` = migration time; pending tasks are pushed
first.  `Date.now()` is modelled as the single instant `now` for the whole
load. -/
def migrateLegacy (now : Nat) (nowIso : String)
    (todo completed : List String) : List Todo :=
  (todo.enum.map fun p =>
    { id := now + p.1, text := p.2, completed := false, createdAt := nowIso }) ++
  (completed.enum.map fun p =>
    { id := now + 1000 + p.1, text := p.2, completed := true, createdAt := nowIso })

/-- `loadData` (main.js lines 21-60): use the current-format key if
present; else migrate the legacy key (persisting the result under the
current key and removing the legacy key); else start empty.  Returns the
loaded collection together with the storage state afterwards; `none`
models a load that crashes on unexpectedly-shaped data. -/
def loadData (now : Nat) (nowIso : String) (s : Storage) :
    Option (List Todo × Storage) :=
  match s.todos with
  | some j => (decodeTodos j).map (fun ts => (ts, s))
  | none =>
    match s.todoList with
    | some j =>
        (decodeLegacy j).map (fun p =>
          let migrated := migrateLegacy now nowIso p.1 p.2
          (migrated, { save migrated s with todoList := none }))
    | none => some ([], s)

/-! ## Helper lemmas -/

/-- Toggling the same id twice leaves an element unchanged. -/
theorem flipIf_flipIf (id : Nat) (t : Todo) : flipIf id (flipIf id t) = t := by
  cases t with
  | mk i x c d =>
    by_cases h : i = id <;> simp [flipIf, h]

/-! ## Claims -/

/-- Claim C1 (code bug evidence): id uniqueness is not preserved by
`addTodo`.  Starting from the empty collection, adding "a" and then "b"
within the same millisecond (both calls see `Date.now() = 5`) produces two
tasks that share id 5, because `addTodo` assigns `Date.now()` as the id
with no check against existing ids. -/
theorem addTodo_same_millisecond_collides :
    (addTodo "b" 5 "t0" (addTodo "a" 5 "t0" []) =
      [{ id := 5, text := "b", completed := false, createdAt := "t0" },
       { id := 5, text := "a", completed := false, createdAt := "t0" }]) ∧
    ¬ ((addTodo "b" 5 "t0" (addTodo "a" 5 "t0" [])).map Todo.id).Nodup := by
  decide

/-- Claim C2: `addTodo` is a silent no-op when the input trims to empty,
and otherwise prepends exactly one new task carrying the trimmed text,
`completed = false`, id `Date.now()` and `createdAt` = now, leaving all
existing tasks unchanged. -/
theorem addTodo_spec (input : String) (now : Nat) (nowIso : String)
    (todos : List Todo) :
    (jsTrim input = "" → addTodo input now nowIso todos = todos) ∧
    (jsTrim input ≠ "" →
      addTodo input now nowIso todos =
        { id := now, text := jsTrim input, completed := false,
          createdAt := nowIso } :: todos) := by
  constructor <;> intro h <;> simp [addTodo, h]

/-- Witness for C2 at concrete inputs: whitespace input is a no-op, and
adding "  buy milk  " at time 7 prepends the trimmed task. -/
theorem addTodo_spec_witness :
    addTodo "   " 7 "iso" [] = [] ∧
    addTodo "  buy milk  " 7 "iso" [] =
      [{ id := 7, text := "buy milk", completed := false, createdAt := "iso" }] := by
  constructor
  · exact (addTodo_spec "   " 7 "iso" []).1 (by decide)
  · rw [(addTodo_spec "  buy milk  " 7 "iso" []).2 (by decide)]
    decide

/-- Claim C3: `toggleTodo` keeps the length and order of the collection,
and position-wise it flips `completed` exactly on elements whose id
matches while keeping `id`, `text` and `createdAt` (that is what `flipIf`
does); consequently toggling the same id twice restores the collection
exactly. -/
theorem toggleTodo_spec (id : Nat) (todos : List Todo) :
    toggleTodo id (toggleTodo id todos) = todos ∧
    ∀ i : Nat, (toggleTodo id todos)[i]? = (todos[i]?).map (flipIf id) := by
  constructor
  · simp only [toggleTodo, List.map_map]
    simp [Function.comp_def, flipIf_flipIf]
  · intro i
    simp [toggleTodo]

/-- Claim C4: toggling an id that no task carries is a no-op on the
collection. -/
theorem toggleTodo_absent (id : Nat) (todos : List Todo)
    (h : ∀ t ∈ todos, t.id ≠ id) : toggleTodo id todos = todos := by
  induction todos with
  | nil => rfl
  | cons a l ih =>
    have ha : a.id ≠ id := h a (List.mem_cons_self a l)
    have hl := ih (fun t ht => h t (List.mem_cons_of_mem a ht))
    simp only [toggleTodo] at hl ⊢
    simp [flipIf, ha, hl]

/-- Witness for C4: toggling id 99 in a one-task collection whose task has
id 1 changes nothing. -/
theorem toggleTodo_absent_witness :
    toggleTodo 99 [{ id := 1, text := "a", completed := false, createdAt := "d" }] =
      [{ id := 1, text := "a", completed := false, createdAt := "d" }] :=
  toggleTodo_absent 99
    [{ id := 1, text := "a", completed := false, createdAt := "d" }] (by decide)

/-- Claim C5: the deletion committed after the delay keeps a subsequence
of the collection (relative order preserved), removes every occurrence of
the given id and no other task (multiplicities of all other tasks are
unchanged), and is a no-op when no task carries the id. -/
theorem deleteTodo_spec (id : Nat) (todos : List Todo) :
    (deleteTodo id todos).Sublist todos ∧
    (∀ t : Todo, (deleteTodo id todos).count t =
        if t.id = id then 0 else todos.count t) ∧
    ((∀ t ∈ todos, t.id ≠ id) → deleteTodo id todos = todos) := by
  refine ⟨List.filter_sublist _, ?_, ?_⟩
  · intro t
    by_cases h : t.id = id
    · rw [if_pos h, List.count_eq_zero]
      simp [deleteTodo, List.mem_filter, h]
    · rw [if_neg h, deleteTodo, List.count_filter]
      simpa using h
  · intro h
    rw [deleteTodo, List.filter_eq_self.mpr]
    intro t ht
    simpa using h t ht

/-- Witness for C5: deleting id 42 from a one-task collection whose task
has id 3 changes nothing. -/
theorem deleteTodo_spec_witness :
    deleteTodo 42 [{ id := 3, text := "a", completed := false, createdAt := "d" }] =
      [{ id := 3, text := "a", completed := false, createdAt := "d" }] :=
  (deleteTodo_spec 42
      [{ id := 3, text := "a", completed := false, createdAt := "d" }]).2.2
    (by decide)

/-- Decoding inverts encoding on a single task object. -/
theorem decodeTodo_encodeTodo (t : Todo) : decodeTodo (encodeTodo t) = some t := rfl

/-- Decoding inverts encoding on the whole collection. -/
theorem decodeTodos_encodeTodos (ts : List Todo) :
    decodeTodos (encodeTodos ts) = some ts := by
  induction ts with
  | nil => rfl
  | cons a l ih =>
    have ih' : decodeTodoList (l.map encodeTodo) = some l := by
      simpa [decodeTodos, encodeTodos] using ih
    simp [decodeTodos, encodeTodos, decodeTodoList, decodeTodo_encodeTodo, ih']

/-- Claim C6: the view filter.  Section `all` keeps exactly the pending
tasks, `completed` exactly the completed ones, `today` exactly the pending
tasks created on the current day, and any section other than `today` and
`completed` behaves as `all`.  (The filter builds a new list; the input
collection is a value and is never mutated.) -/
theorem getFilteredTodos_spec (today : String) (toDS : String → String)
    (todos : List Todo) :
    (∀ t : Todo, t ∈ getFilteredTodos "all" today toDS todos ↔
        t ∈ todos ∧ t.completed = false) ∧
    (∀ t : Todo, t ∈ getFilteredTodos "completed" today toDS todos ↔
        t ∈ todos ∧ t.completed = true) ∧
    (∀ t : Todo, t ∈ getFilteredTodos "today" today toDS todos ↔
        t ∈ todos ∧ toDS t.createdAt = today ∧ t.completed = false) ∧
    (∀ sect : String, sect ≠ "today" → sect ≠ "completed" →
        getFilteredTodos sect today toDS todos =
          getFilteredTodos "all" today toDS todos) := by
  refine ⟨?_, ?_, ?_, ?_⟩
  · intro t
    simp [getFilteredTodos, List.mem_filter]
  · intro t
    simp [getFilteredTodos, List.mem_filter]
  · intro t
    simp [getFilteredTodos, List.mem_filter, and_assoc]
  · intro sect h1 h2
    simp [getFilteredTodos, h1, h2]

/-- Witness for C6: an unknown section name filters like `all` on a
two-task collection. -/
theorem getFilteredTodos_spec_witness :
    getFilteredTodos "bogus" "d" (fun s => s)
        [{ id := 1, text := "a", completed := true, createdAt := "d" },
         { id := 2, text := "b", completed := false, createdAt := "d" }] =
      getFilteredTodos "all" "d" (fun s => s)
        [{ id := 1, text := "a", completed := true, createdAt := "d" },
         { id := 2, text := "b", completed := false, createdAt := "d" }] :=
  (getFilteredTodos_spec "d" (fun s => s)
      [{ id := 1, text := "a", completed := true, createdAt := "d" },
       { id := 2, text := "b", completed := false, createdAt := "d" }]).2.2.2
    "bogus" (by decide) (by decide)

/-- Claim C7: loading with the current key absent and the legacy key
holding `\x7btodo:["a","b"], completed:["c"]\x7d` migrates to exactly three
tasks ("a" and "b" pending, "c" completed) with pairwise distinct ids,
persists them under the current key, deletes the legacy key, and a second
load returns the same collection and storage unchanged (no re-migration,
no duplication). -/
theorem loadData_migration (now now2 : Nat) (iso iso2 : String) :
    ∃ ts s1,
      loadData now iso
          { todos := none,
            todoList := some (.obj
              [("todo", .arr [.str "a", .str "b"]),
               ("completed", .arr [.str "c"])]) } = some (ts, s1) ∧
      ts = [{ id := now, text := "a", completed := false, createdAt := iso },
            { id := now + 1, text := "b", completed := false, createdAt := iso },
            { id := now + 1000, text := "c", completed := true, createdAt := iso }] ∧
      (ts.map Todo.id).Nodup ∧
      s1.todoList = none ∧
      s1.todos = some (encodeTodos ts) ∧
      loadData now2 iso2 s1 = some (ts, s1) := by
  refine ⟨_, _, rfl, rfl, ?_, rfl, rfl, ?_⟩
  · show ([{ id := now, text := "a", completed := false, createdAt := iso },
       { id := now + 1, text := "b", completed := false, createdAt := iso },
       { id := now + 1000, text := "c", completed := true,
         createdAt := iso }].map Todo.id).Nodup
    simp
  · simp [loadData, save, decodeTodos_encodeTodos]

/-- Claim C8: persisting any collection and loading it back returns that
collection unchanged, field for field and in order, with storage as the
save left it. -/
theorem save_loadData_roundtrip (ts : List Todo) (s : Storage)
    (now : Nat) (iso : String) :
    loadData now iso (save ts s) = some (ts, save ts s) := by
  simp [loadData, save, decodeTodos_encodeTodos]

/-- Claim C9: the escaping applied to task text on render leaves no `<` or
`>` in the output, so stored text can never produce markup; in particular
`<script>` renders as `&lt;script&gt;`. -/
theorem escapeHtml_spec :
    (∀ s : String,
      (escapeHtml s).data.all (fun c => !(c == '<') && !(c == '>'))) ∧
    escapeHtml "<script>" = "&lt;script&gt;" := by
  constructor
  · intro s
    rw [escapeHtml]
    simp only [List.all_eq_true, List.mem_flatMap]
    rintro c ⟨c0, _, hc⟩
    revert hc
    unfold escapeChar
    split_ifs with h1 h2 h3 <;> intro hc
    · fin_cases hc <;> decide
    · fin_cases hc <;> decide
    · fin_cases hc <;> decide
    · fin_cases hc
      simp [h2, h3]
  · decide

/-- Claim C10: the view filter is order- and multiplicity-preserving for
every section: the filtered list is a subsequence of the collection, and
every task it returns occurs in it exactly as often as in the collection. -/
theorem getFilteredTodos_sublist (sect today : String) (toDS : String → String)
    (todos : List Todo) :
    (getFilteredTodos sect today toDS todos).Sublist todos ∧
    ∀ t ∈ getFilteredTodos sect today toDS todos,
      (getFilteredTodos sect today toDS todos).count t = todos.count t := by
  unfold getFilteredTodos
  split_ifs <;>
    exact ⟨List.filter_sublist _,
      fun t ht => List.count_filter (List.mem_filter.mp ht).2⟩

/-- Witness for C10: in the `completed` section of a two-task collection,
the completed task keeps its multiplicity. -/
theorem getFilteredTodos_sublist_witness :
    (getFilteredTodos "completed" "d" (fun s => s)
        [{ id := 1, text := "a", completed := true, createdAt := "d" },
         { id := 2, text := "b", completed := false, createdAt := "d" }]).count
      { id := 1, text := "a", completed := true, createdAt := "d" } =
    ([{ id := 1, text := "a", completed := true, createdAt := "d" },
      { id := 2, text := "b", completed := false, createdAt := "d" }] :
        List Todo).count
      { id := 1, text := "a", completed := true, createdAt := "d" } :=
  (getFilteredTodos_sublist "completed" "d" (fun s => s)
      [{ id := 1, text := "a", completed := true, createdAt := "d" },
       { id := 2, text := "b", completed := false, createdAt := "d" }]).2
    { id := 1, text := "a", completed := true, createdAt := "d" } (by decide)
